import Mathlib

/-!
Formal model of the ADB bulk-provisioning tool (`main.py`).

The program under study is a PyQt GUI whose only decision logic lives in
`ADBApp.run_command` and a handful of helper methods
(`install_apk_from_memory`, `get_installed_version`, `check_loaded_apk`).
We embed that logic shallowly: every external, side-effecting call
(adb shell commands, package uninstall, file push, and
`subprocess.run` of `adb kill-server`) is represented by its outcome, an
`Except String _` value supplied as an oracle field of `Device`, and the
embedding records the sequence of external calls actually issued as a
list of `Action`s.  `.error e` models the call raising a Python
exception whose message is `e`.  Pure UI log lines (`log_signal.emit`)
are presentation only and are not recorded; the device-list refresh
signal (`update_devices_signal.emit`, line 305) is recorded as
`Action.updateUI` because the `continue` statement at line 269
determines whether it runs.

Python string operations are modelled on `List Char`:  `pat in s` is
substring containment, `s.lower()` is character-wise lowercasing
(faithful for the ASCII patterns matched here), `s.strip()` removes
leading/trailing whitespace, `s.splitlines()` splits at line
boundaries, and `s.split("=", 1)[1]` is the text after the first `=`.
-/

namespace ADBTool

/-! ### Python string primitives -/

/-- Helper for `pyIn`: `sublistContains pat l` decides whether `pat` is a
contiguous sublist (infix) of `l`. -/
def sublistContains (pat : List Char) : List Char → Bool
  | [] => pat.isEmpty
  | c :: rest => pat.isPrefixOf (c :: rest) || sublistContains pat rest

/-- Python's `pat in s` on strings: substring containment. -/
def pyIn (pat s : String) : Bool :=
  sublistContains pat.toList s.toList

/-- Python's `s.lower()`, modelled as character-wise lowercasing.  This is
exact for the ASCII text matched by the program (`"error"`, `"failure"`). -/
def pyLower (s : String) : String :=
  String.mk (s.toList.map Char.toLower)

/-- The whitespace class stripped by Python's `str.strip()` (ASCII/Latin-1
portion; the `dumpsys` output this models is ASCII). -/
def pyIsSpace (c : Char) : Bool :=
  c = ' ' || c = '\t' || c = '\n' || c = '\r' || c = '\x0b' || c = '\x0c' ||
  c = '\x1c' || c = '\x1d' || c = '\x1e' || c = '\x1f' || c = '\x85' || c = '\xa0'

/-- Python's `s.strip()`: remove leading and trailing whitespace. -/
def pyStrip (s : String) : String :=
  String.mk (((s.toList.dropWhile pyIsSpace).reverse.dropWhile pyIsSpace).reverse)

/-- Python's `s.startswith(pre)`. -/
def pyStartswith (pre s : String) : Bool :=
  pre.toList.isPrefixOf s.toList

/-- Helper for `pySplitlines`: accumulate the current line (reversed in
`acc`) and split at Python's line boundaries (`\r\n`, `\r`, `\n`, and the
other `str.splitlines` terminators).  A trailing terminator does not
produce a final empty line, exactly as in Python. -/
def splitlinesAux : List Char → List Char → List (List Char)
  | [], acc => if acc.isEmpty then [] else [acc.reverse]
  | '\r' :: '\n' :: rest, acc => acc.reverse :: splitlinesAux rest []
  | c :: rest, acc =>
    if c = '\r' || c = '\n' || c = '\x0b' || c = '\x0c' || c = '\x1c' ||
       c = '\x1d' || c = '\x1e' || c = '\x85' || c = '\u2028' || c = '\u2029' then
      acc.reverse :: splitlinesAux rest []
    else
      splitlinesAux rest (c :: acc)

/-- Python's `s.splitlines()`. -/
def pySplitlines (s : String) : List String :=
  (splitlinesAux s.toList []).map String.mk

/-- Python's `s.split("=", 1)[1]`: the text after the first `=`.  Only used
on lines already known to contain `=` (they start with `versionName=`). -/
def pySplitEq1 (s : String) : String :=
  String.mk ((s.toList.dropWhile (fun c => c ≠ '=')).drop 1)

theorem sublistContains_iff (pat l : List Char) :
    sublistContains pat l = true ↔ pat <:+: l := by
  induction l with
  | nil =>
    simp [sublistContains, List.isEmpty_iff]
  | cons c rest ih =>
    simp only [sublistContains, Bool.or_eq_true, ih, List.infix_cons_iff,
      List.isPrefixOf_iff_prefix]

theorem pyIn_iff (pat s : String) :
    pyIn pat s = true ↔ pat.toList <:+: s.toList := by
  unfold pyIn; exact sublistContains_iff _ _

/-- The test `pyIn pat (pyLower s)` (for a lowercase pattern) is exactly
case-insensitive substring matching: some contiguous piece of `s`
lowercases to the pattern. -/
theorem pyIn_pyLower_iff (pat s : String) :
    pyIn pat (pyLower s) = true ↔
      ∃ t : List Char, t <:+: s.toList ∧ t.map Char.toLower = pat.toList := by
  rw [pyIn_iff]
  show pat.toList <:+: s.toList.map Char.toLower ↔ _
  constructor
  · rintro ⟨pre, post, hsplit⟩
    rw [List.append_assoc] at hsplit
    obtain ⟨l₁, l₂, hl, hmap₁, hmap₂⟩ := List.map_eq_append_iff.mp hsplit.symm
    obtain ⟨l₃, l₄, hl', hmap₃, hmap₄⟩ := List.map_eq_append_iff.mp hmap₂
    refine ⟨l₃, ⟨l₁, l₄, ?_⟩, hmap₃⟩
    rw [hl, hl', List.append_assoc]
  · rintro ⟨t, hinf, hmap⟩
    have := List.IsInfix.map Char.toLower hinf
    rwa [hmap] at this

/-! ### Data model

`Device` packages the serial of one enumerated device together with the
outcomes of the external calls `run_command` can make for it, in source
order (lines 262, 274, 278, 331, 337, 289, 292, 296 of `main.py`).
`AppState` is the mutable application state the pass reads:
`self.temp_apk_path` and the `os.path.exists` view of the filesystem. -/

/-- Oracle outcomes for the external calls issued for one device. -/
structure Device where
  serial : String
  /-- line 262: `device.shell("dumpsys device_policy")`, first query -/
  dumpPolicy1 : Except String String
  /-- line 274: `device.shell("pm list packages")` -/
  pmListPackages : Except String String
  /-- line 278: `device.uninstall("com.hmdm.launcher")` -/
  uninstallResult : Except String String
  /-- line 331: `device.push(local_path, remote_path)` -/
  pushResult : Except String Unit
  /-- line 337: `device.shell("pm install <remote_path>")` -/
  pmInstallResult : Except String String
  /-- line 289: `device.shell("dumpsys device_policy")`, re-query -/
  dumpPolicy2 : Except String String
  /-- line 292: `device.shell("dpm set-device-owner com.hmdm.launcher/.AdminReceiver")` -/
  setOwnerResult : Except String String
  /-- line 296: `subprocess.run(["adb", "kill-server"], ...)` inside the loop -/
  killServerResult : Except String Unit

/-- The application state read by the bulk pass. -/
structure AppState where
  temp_apk_path : Option String
  /-- `os.path.exists` -/
  fileExists : String → Bool

/-- One external call issued during the pass. -/
inductive Action where
  | shellDumpPolicy (serial : String)
  | shellPmList (serial : String)
  | uninstallLauncher (serial : String)
  | pushApk (serial localPath remote : String)
  | shellPmInstall (serial remote : String)
  | shellSetDeviceOwner (serial : String)
  | adbKillServer
  | updateUI
  deriving DecidableEq, Repr

/-- Result of processing one device: the calls issued, the application
state afterwards, and `.error e` when a Python exception escapes the
per-device code (to be caught by the handler at line 309). -/
structure StepResult where
  actions : List Action
  state : AppState
  outcome : Except String Unit

/-- Result of `install_apk_from_memory`: the calls issued, the returned
string, and the application state afterwards. -/
structure InstallResult where
  actions : List Action
  result : String
  state : AppState

/-! ### The provisioning pass (`run_command` and helpers) -/

/-- The fixed remote path of line 327. -/
def remotePath : String := "/data/local/tmp/tmp_mdm_launcher.apk"

/-- Lines 318-341, `install_apk_from_memory(device, local_path)`: push the
APK, then run `pm install`; an exception from either call is converted
into a returned error string.  No application state is written. -/
def install_apk_from_memory (st : AppState) (d : Device) (local_path : String) :
    InstallResult :=
  match d.pushResult with
  | .error e =>
    ⟨[.pushApk d.serial local_path remotePath],
      "Failed to push APK to device: " ++ e, st⟩
  | .ok _ =>
    match d.pmInstallResult with
    | .error e =>
      ⟨[.pushApk d.serial local_path remotePath, .shellPmInstall d.serial remotePath],
        "Failed to run pm install: " ++ e, st⟩
    | .ok install_output =>
      ⟨[.pushApk d.serial local_path remotePath, .shellPmInstall d.serial remotePath],
        install_output, st⟩

/-- Lines 277-281: the guarded uninstall.  The call is issued; whether it
returns or raises, the exception is swallowed (`except` at line 280) and
only the log line differs.  Returns the call and the log text. -/
def uninstallStep (d : Device) : Action × String :=
  match d.uninstallResult with
  | .ok r => (.uninstallLauncher d.serial, "Uninstall result: " ++ r)
  | .error e => (.uninstallLauncher d.serial, "Uninstall failed: " ++ e)

/-- Lines 287-301: after the install attempt, re-query the device-owner
status; if still unset, issue `dpm set-device-owner` and, when its output
contains `"error"` or `"failure"` case-insensitively, run
`adb kill-server` once. -/
def ownerPhase (st : AppState) (d : Device) : StepResult :=
  match d.dumpPolicy2 with
  | .error e => ⟨[.shellDumpPolicy d.serial], st, .error e⟩
  | .ok dump =>
    if !(pyIn "Device Owner:" dump) then
      match d.setOwnerResult with
      | .error e => ⟨[.shellDumpPolicy d.serial, .shellSetDeviceOwner d.serial], st, .error e⟩
      | .ok output =>
        if pyIn "error" (pyLower output) || pyIn "failure" (pyLower output) then
          match d.killServerResult with
          | .error e =>
            ⟨[.shellDumpPolicy d.serial, .shellSetDeviceOwner d.serial, .adbKillServer],
              st, .error e⟩
          | .ok _ =>
            ⟨[.shellDumpPolicy d.serial, .shellSetDeviceOwner d.serial, .adbKillServer],
              st, .ok ()⟩
        else
          ⟨[.shellDumpPolicy d.serial, .shellSetDeviceOwner d.serial], st, .ok ()⟩
    else
      ⟨[.shellDumpPolicy d.serial], st, .ok ()⟩

/-- Lines 271-301, the provisioning branch taken when no owner is set and
an APK is loaded at path `p`: list packages, uninstall the launcher if
present, install the APK, then `ownerPhase`. -/
def provisionDevice (st : AppState) (d : Device) (p : String) : StepResult :=
  match d.pmListPackages with
  | .error e => ⟨[.shellPmList d.serial], st, .error e⟩
  | .ok pkg_list =>
    let pre :=
      if pyIn "com.hmdm.launcher" pkg_list then
        [Action.shellPmList d.serial, (uninstallStep d).1]
      else
        [Action.shellPmList d.serial]
    let ir := install_apk_from_memory st d p
    let r := ownerPhase ir.state d
    ⟨pre ++ ir.actions ++ r.actions, r.state, r.outcome⟩

/-- Lines 258-305, the body of the `for` loop for one device: query the
device-owner status; skip if already set; `continue` (without the UI
refresh of line 305) when no APK is loaded or its file is gone; otherwise
provision the device.  The UI refresh runs on every non-`continue`,
non-raising path. -/
def processDevice (st : AppState) (d : Device) : StepResult :=
  match d.dumpPolicy1 with
  | .error e => ⟨[.shellDumpPolicy d.serial], st, .error e⟩
  | .ok dump =>
    if pyIn "Device Owner:" dump then
      ⟨[.shellDumpPolicy d.serial, .updateUI], st, .ok ()⟩
    else
      match st.temp_apk_path with
      | none => ⟨[.shellDumpPolicy d.serial], st, .ok ()⟩
      | some p =>
        if p.isEmpty || !st.fileExists p then
          ⟨[.shellDumpPolicy d.serial], st, .ok ()⟩
        else
          let r := provisionDevice st d p
          match r.outcome with
          | .ok _ =>
            ⟨Action.shellDumpPolicy d.serial :: (r.actions ++ [Action.updateUI]),
              r.state, .ok ()⟩
          | .error e =>
            ⟨Action.shellDumpPolicy d.serial :: r.actions, r.state, .error e⟩

/-- Lines 257-316: the `for` loop inside the `try` of `run_command`.  A
device whose processing raises is the last one processed: the `except`
handler at line 309 issues `adb kill-server` (itself guarded, so nothing
propagates) and `run_command` returns. -/
def runLoop (st : AppState) : List Device → List Action
  | [] => []
  | d :: rest =>
    let r := processDevice st d
    match r.outcome with
    | .ok _ => r.actions ++ runLoop r.state rest
    | .error _ => r.actions ++ [Action.adbKillServer]

/-- Lines 240-316, `run_command`: with no devices the pass logs and
returns (lines 251-253); otherwise it runs the loop.  The returned list
is the sequence of external calls issued; the function is total because
`run_command` never lets an exception propagate. -/
def run_command (st : AppState) (devices : List Device) : List Action :=
  if devices.isEmpty then [] else runLoop st devices

/-! ### `get_installed_version` (lines 221-234) -/

/-- Lines 228-232: scan the lines of the `dumpsys package` output; on the
first line whose stripped form starts with `versionName=`, return the text
after the first `=`, stripped. -/
def versionLineScan : List String → String
  | [] => "N/A"
  | line :: rest =>
    let stripped := pyStrip line
    if pyStartswith "versionName=" stripped then
      pyStrip (pySplitEq1 stripped)
    else
      versionLineScan rest

/-- Lines 221-234, `get_installed_version`: the argument is the outcome of
`device.shell("dumpsys package com.hmdm.launcher")`; an exception yields
`"N/A"` (the `except` at line 233), as does the absence of a matching
line (line 232). -/
def get_installed_version (pkg_info : Except String String) : String :=
  match pkg_info with
  | .error _ => "N/A"
  | .ok s => versionLineScan (pySplitlines s)

/-! ### `check_loaded_apk` version extraction (lines 131-140) -/

/-- The literal part of the regex `versionName='([^']+)'`. -/
def versionNameLit : List Char := "versionName='".toList


/-- Model of `re.search(r"versionName='([^']+)'", out)`: scan left to
right; at the first position where the literal matches and is followed by
a nonempty run of non-quote characters closed by a quote, return that run
(the capture group); otherwise keep scanning from the next position. -/
def versionNameSearch : List Char → Option (List Char)
  | [] => none
  | c :: rest =>
    if versionNameLit.isPrefixOf (c :: rest) then
      if ((c :: rest).drop versionNameLit.length).takeWhile (fun ch => ch ≠ '\'') ≠ [] ∧
          (((c :: rest).drop versionNameLit.length).takeWhile (fun ch => ch ≠ '\'')).length <
            ((c :: rest).drop versionNameLit.length).length then
        some (((c :: rest).drop versionNameLit.length).takeWhile (fun ch => ch ≠ '\''))
      else
        versionNameSearch rest
    else
      versionNameSearch rest

/-- Lines 131-140 of `check_loaded_apk`: the argument is the outcome of
`subprocess.run(["aapt", "dump", "badging", path], ...)`, as the pair
(returncode, stdout); an exception (line 139), a nonzero exit code, or a
failed regex search all leave the version at its line-131 default
`"unknown"`. -/
def check_loaded_apk_version (aapt : Except String (Int × String)) : String :=
  match aapt with
  | .error _ => "unknown"
  | .ok (returncode, stdout) =>
    if returncode = 0 then
      match versionNameSearch stdout.toList with
      | some g => String.mk g
      | none => "unknown"
    else
      "unknown"

/-- Declarative reading of one match of the regex `versionName='([^']+)'`
with capture `g`, somewhere in `l`. -/
def VersionNameMatch (l g : List Char) : Prop :=
  ∃ pre post, l = pre ++ versionNameLit ++ g ++ '\'' :: post ∧ g ≠ [] ∧ '\'' ∉ g

theorem takeWhile_eq_of_append_stop {g post : List Char} {q : Char}
    (h : ∀ c ∈ g, c ≠ q) :
    (g ++ q :: post).takeWhile (fun ch => ch ≠ q) = g := by
  induction g with
  | nil => simp [List.takeWhile_cons]
  | cons a g ih =>
    have ha : a ≠ q := h a (List.mem_cons_self a g)
    simp only [List.cons_append, List.takeWhile_cons, decide_eq_true_eq]
    rw [if_pos ha, ih (fun c hc => h c (List.mem_cons_of_mem a hc))]

theorem takeWhile_close (after : List Char)
    (hlt : (after.takeWhile (fun ch => ch ≠ '\'')).length < after.length) :
    after = after.takeWhile (fun ch => ch ≠ '\'') ++ '\'' ::
      (after.dropWhile (fun ch => ch ≠ '\'')).tail := by
  have hdw := List.takeWhile_append_dropWhile (fun ch => ch ≠ '\'') after
  have hdrop_ne : after.dropWhile (fun ch => ch ≠ '\'') ≠ [] := by
    intro hnil
    rw [hnil, List.append_nil] at hdw
    rw [hdw] at hlt
    exact lt_irrefl _ hlt
  have hhead : (after.dropWhile (fun ch => ch ≠ '\'')).head hdrop_ne = '\'' := by
    have hh := List.head_dropWhile_not (fun ch => ch ≠ '\'') after hdrop_ne
    simpa using hh
  have hc : after.dropWhile (fun ch => ch ≠ '\'') = '\'' ::
      (after.dropWhile (fun ch => ch ≠ '\'')).tail := by
    conv_lhs => rw [← List.head_cons_tail _ hdrop_ne]
    rw [hhead]
  conv_lhs => rw [← hdw, hc]

/-- Soundness of the regex scanner: a returned capture really is the
group of a match of `versionName='([^']+)'` in the scanned text. -/
theorem versionNameSearch_sound {l g : List Char}
    (h : versionNameSearch l = some g) : VersionNameMatch l g := by
  induction l with
  | nil => simp [versionNameSearch] at h
  | cons c rest ih =>
    rw [versionNameSearch] at h
    by_cases hpre : versionNameLit.isPrefixOf (c :: rest) = true
    · rw [if_pos hpre] at h
      by_cases hcond : ((c :: rest).drop versionNameLit.length).takeWhile
            (fun ch => ch ≠ '\'') ≠ [] ∧
          (((c :: rest).drop versionNameLit.length).takeWhile
            (fun ch => ch ≠ '\'')).length <
            ((c :: rest).drop versionNameLit.length).length
      · rw [if_pos hcond] at h
        obtain ⟨hne, hlt⟩ := hcond
        have heq := Option.some.inj h
        have hsplit : versionNameLit ++ (c :: rest).drop versionNameLit.length = c :: rest :=
          List.prefix_iff_eq_append.mp (List.isPrefixOf_iff_prefix.mp hpre)
        refine ⟨[], (((c :: rest).drop versionNameLit.length).dropWhile
            (fun ch => ch ≠ '\'')).tail, ?_, ?_, ?_⟩
        · rw [List.nil_append, ← hsplit, List.append_assoc]
          congr 1
          rw [← heq]
          exact takeWhile_close _ hlt
        · rw [← heq]; exact hne
        · rw [← heq]
          intro hmem
          have := List.mem_takeWhile_imp hmem
          simp at this
      · rw [if_neg hcond] at h
        obtain ⟨pre, post, hsp, hne, hnm⟩ := ih h
        exact ⟨c :: pre, post, by rw [List.cons_append, List.cons_append,
          List.cons_append, hsp], hne, hnm⟩
    · rw [if_neg hpre] at h
      obtain ⟨pre, post, hsp, hne, hnm⟩ := ih h
      exact ⟨c :: pre, post, by rw [List.cons_append, List.cons_append,
        List.cons_append, hsp], hne, hnm⟩

/-- Completeness of the regex scanner: when it returns nothing, the
pattern has no match anywhere in the scanned text. -/
theorem versionNameSearch_none {l : List Char}
    (h : versionNameSearch l = none) (g : List Char) : ¬ VersionNameMatch l g := by
  induction l with
  | nil =>
    rintro ⟨pre, post, hsp, hne, hnm⟩
    have hlen := congrArg List.length hsp
    have h13 : versionNameLit.length = 13 := rfl
    simp only [List.length_nil, List.length_append, List.length_cons, h13] at hlen
    omega
  | cons c rest ih =>
    rintro ⟨pre, post, hsp, hne, hnm⟩
    rw [versionNameSearch] at h
    cases pre with
    | nil =>
      rw [List.nil_append] at hsp
      have hcr : c :: rest = versionNameLit ++ (g ++ '\'' :: post) := by
        rw [hsp, List.append_assoc]
      have hpre : versionNameLit.isPrefixOf (c :: rest) = true :=
        List.isPrefixOf_iff_prefix.mpr ⟨g ++ '\'' :: post, hcr.symm⟩
      have hdrop : (c :: rest).drop versionNameLit.length = g ++ '\'' :: post := by
        rw [hcr, List.drop_left]
      have htw : ((c :: rest).drop versionNameLit.length).takeWhile
          (fun ch => ch ≠ '\'') = g := by
        rw [hdrop]
        exact takeWhile_eq_of_append_stop (fun ch hc hq => hnm (hq ▸ hc))
      rw [if_pos hpre] at h
      have hcond : ((c :: rest).drop versionNameLit.length).takeWhile
            (fun ch => ch ≠ '\'') ≠ [] ∧
          (((c :: rest).drop versionNameLit.length).takeWhile
            (fun ch => ch ≠ '\'')).length <
            ((c :: rest).drop versionNameLit.length).length := by
        refine ⟨by rw [htw]; exact hne, ?_⟩
        rw [htw, hdrop]
        simp
      rw [if_pos hcond] at h
      exact Option.noConfusion h
    | cons a pre =>
      have hsp' : c = a ∧ rest = pre ++ versionNameLit ++ g ++ '\'' :: post := by
        rw [List.cons_append, List.cons_append, List.cons_append] at hsp
        exact ⟨(List.cons.inj hsp).1, (List.cons.inj hsp).2⟩
      have hmatch : VersionNameMatch rest g := ⟨pre, post, hsp'.2, hne, hnm⟩
      by_cases hpre : versionNameLit.isPrefixOf (c :: rest) = true
      · rw [if_pos hpre] at h
        by_cases hcond : ((c :: rest).drop versionNameLit.length).takeWhile
              (fun ch => ch ≠ '\'') ≠ [] ∧
            (((c :: rest).drop versionNameLit.length).takeWhile
              (fun ch => ch ≠ '\'')).length <
              ((c :: rest).drop versionNameLit.length).length
        · rw [if_pos hcond] at h
          exact Option.noConfusion h
        · rw [if_neg hcond] at h
          exact ih h hmatch
      · rw [if_neg hpre] at h
        exact ih h hmatch

/-! ### Frame and loop lemmas for the pass -/

/-- `install_apk_from_memory` writes no application state (lines 318-341
contain no assignment to `self`). -/
theorem install_apk_from_memory_state (st : AppState) (d : Device) (p : String) :
    (install_apk_from_memory st d p).state = st := by
  obtain ⟨s, d1, pk, ur, pr, ir, d2, so, ks⟩ := d
  cases pr <;> cases ir <;> rfl

theorem ownerPhase_state (st : AppState) (d : Device) :
    (ownerPhase st d).state = st := by
  obtain ⟨s, d1, pk, ur, pr, ir, d2, so, ks⟩ := d
  unfold ownerPhase
  cases d2 with
  | error e => rfl
  | ok dump =>
    dsimp only
    split
    · cases so with
      | error e => rfl
      | ok output =>
        dsimp only
        split
        · cases ks <;> rfl
        · rfl
    · rfl

theorem provisionDevice_state (st : AppState) (d : Device) (p : String) :
    (provisionDevice st d p).state = st := by
  unfold provisionDevice
  cases hpk : d.pmListPackages with
  | error e => rfl
  | ok pkg_list =>
    show (ownerPhase (install_apk_from_memory st d p).state d).state = st
    rw [ownerPhase_state, install_apk_from_memory_state]

/-- Processing one device leaves the application state unchanged: the
loop body of `run_command` assigns nothing to `self`. -/
theorem processDevice_state (st : AppState) (d : Device) :
    (processDevice st d).state = st := by
  unfold processDevice
  cases h1 : d.dumpPolicy1 with
  | error e => rfl
  | ok dump =>
    dsimp only
    split
    · rfl
    · cases hpath : st.temp_apk_path with
      | none => rfl
      | some p =>
        dsimp only
        split
        · rfl
        · cases ho : (provisionDevice st d p).outcome <;>
            simpa [ho] using provisionDevice_state st d p

theorem runLoop_cons_ok (st : AppState) (d : Device) (rest : List Device)
    (h : (processDevice st d).outcome = .ok ()) :
    runLoop st (d :: rest) = (processDevice st d).actions ++ runLoop st rest := by
  simp only [runLoop, h]
  rw [processDevice_state]

theorem runLoop_cons_error (st : AppState) (d : Device) (rest : List Device)
    (e : String) (h : (processDevice st d).outcome = .error e) :
    runLoop st (d :: rest) = (processDevice st d).actions ++ [Action.adbKillServer] := by
  simp only [runLoop, h]

/-- When no device raises, the loop visits every device in order and the
emitted calls are the concatenation of the per-device calls. -/
theorem runLoop_all_ok (st : AppState) (devices : List Device)
    (h : ∀ d ∈ devices, (processDevice st d).outcome = .ok ()) :
    runLoop st devices = devices.flatMap (fun d => (processDevice st d).actions) := by
  induction devices with
  | nil => rfl
  | cons d rest ih =>
    rw [runLoop_cons_ok st d rest (h d (List.mem_cons_self d rest)),
      List.flatMap_cons, ih (fun d' hd' => h d' (List.mem_cons_of_mem d hd'))]

theorem uninstallStep_fst (d : Device) :
    (uninstallStep d).1 = Action.uninstallLauncher d.serial := by
  unfold uninstallStep
  cases d.uninstallResult <;> rfl

theorem ownerPhase_owner_present (st : AppState) (d : Device) (dump2 : String)
    (h7 : d.dumpPolicy2 = .ok dump2) (h8 : pyIn "Device Owner:" dump2 = true) :
    ownerPhase st d = ⟨[Action.shellDumpPolicy d.serial], st, .ok ()⟩ := by
  unfold ownerPhase
  rw [h7]
  simp [h8]

theorem ownerPhase_fire (st : AppState) (d : Device) (dump2 output : String)
    (h7 : d.dumpPolicy2 = .ok dump2) (h8 : pyIn "Device Owner:" dump2 = false)
    (h9 : d.setOwnerResult = .ok output)
    (hf : (pyIn "error" (pyLower output) || pyIn "failure" (pyLower output)) = true) :
    (ownerPhase st d).actions =
      [Action.shellDumpPolicy d.serial, Action.shellSetDeviceOwner d.serial,
        Action.adbKillServer] ∧
    (d.killServerResult = .ok () → (ownerPhase st d).outcome = .ok ()) := by
  unfold ownerPhase
  rw [h7]
  simp only [h8, Bool.not_false, if_true, h9, hf]
  constructor
  · cases d.killServerResult <;> rfl
  · intro hk
    rw [hk]

theorem ownerPhase_nofire (st : AppState) (d : Device) (dump2 output : String)
    (h7 : d.dumpPolicy2 = .ok dump2) (h8 : pyIn "Device Owner:" dump2 = false)
    (h9 : d.setOwnerResult = .ok output)
    (hf : (pyIn "error" (pyLower output) || pyIn "failure" (pyLower output)) = false) :
    ownerPhase st d =
      ⟨[Action.shellDumpPolicy d.serial, Action.shellSetDeviceOwner d.serial],
        st, .ok ()⟩ := by
  unfold ownerPhase
  rw [h7]
  simp [h8, h9, hf]

theorem ownerPhase_noowner_mem (st : AppState) (d : Device) (dump2 : String)
    (h7 : d.dumpPolicy2 = .ok dump2) (h8 : pyIn "Device Owner:" dump2 = false) :
    Action.shellSetDeviceOwner d.serial ∈ (ownerPhase st d).actions := by
  unfold ownerPhase
  rw [h7]
  simp only [h8, Bool.not_false, if_true]
  cases d.setOwnerResult with
  | error e => simp
  | ok output =>
    dsimp only
    split
    · cases d.killServerResult <;> simp
    · simp

theorem ownerPhase_count_dump (st : AppState) (d : Device) (dump2 : String)
    (h7 : d.dumpPolicy2 = .ok dump2) :
    (ownerPhase st d).actions.count (Action.shellDumpPolicy d.serial) = 1 := by
  unfold ownerPhase
  rw [h7]
  dsimp only
  split
  · cases d.setOwnerResult with
    | error e => simp [List.count_cons, List.count_singleton]
    | ok output =>
      dsimp only
      split
      · cases d.killServerResult <;> simp [List.count_cons, List.count_singleton]
      · simp [List.count_cons, List.count_singleton]
  · simp [List.count_singleton]

theorem provisionDevice_eq (st : AppState) (d : Device) (p pkgs : String)
    (h6 : d.pmListPackages = .ok pkgs) :
    provisionDevice st d p =
      ⟨(if pyIn "com.hmdm.launcher" pkgs then
          [Action.shellPmList d.serial, Action.uninstallLauncher d.serial]
        else [Action.shellPmList d.serial]) ++
        (install_apk_from_memory st d p).actions ++ (ownerPhase st d).actions,
        (ownerPhase st d).state, (ownerPhase st d).outcome⟩ := by
  unfold provisionDevice
  rw [h6]
  dsimp only
  rw [uninstallStep_fst, install_apk_from_memory_state]

/-- On the provisioning path (no owner reported, APK loaded and present),
`processDevice` is the initial owner query followed by `provisionDevice`,
plus the UI refresh on the non-raising exit. -/
theorem processDevice_provision (st : AppState) (d : Device) (p dump : String)
    (h1 : d.dumpPolicy1 = .ok dump) (h2 : pyIn "Device Owner:" dump = false)
    (h3 : st.temp_apk_path = some p) (h4 : p.isEmpty = false)
    (h5 : st.fileExists p = true) :
    processDevice st d =
      match (provisionDevice st d p).outcome with
      | .ok _ => ⟨Action.shellDumpPolicy d.serial ::
          ((provisionDevice st d p).actions ++ [Action.updateUI]), st, .ok ()⟩
      | .error e => ⟨Action.shellDumpPolicy d.serial ::
          (provisionDevice st d p).actions, st, .error e⟩ := by
  unfold processDevice
  rw [h1]
  dsimp only
  rw [if_neg (by rw [h2]; exact Bool.false_ne_true)]
  rw [h3]
  dsimp only
  rw [if_neg (by rw [h4, h5]; simp)]
  cases ho : (provisionDevice st d p).outcome with
  | ok u =>
    have hst := provisionDevice_state st d p
    simp only [ho, hst]
  | error e =>
    have hst := provisionDevice_state st d p
    simp only [ho, hst]

theorem install_apk_from_memory_actions (st : AppState) (d : Device) (p : String) :
    (install_apk_from_memory st d p).actions =
      Action.pushApk d.serial p remotePath ::
        (match d.pushResult with
          | .error _ => []
          | .ok _ => [Action.shellPmInstall d.serial remotePath]) := by
  obtain ⟨s, d1, pk, ur, pr, ir, d2, so, ks⟩ := d
  cases pr <;> cases ir <;> rfl

theorem install_no_kill (st : AppState) (d : Device) (p : String) :
    Action.adbKillServer ∉ (install_apk_from_memory st d p).actions := by
  rw [install_apk_from_memory_actions]
  cases d.pushResult <;> simp

theorem install_no_set_owner (st : AppState) (d : Device) (p s : String) :
    Action.shellSetDeviceOwner s ∉ (install_apk_from_memory st d p).actions := by
  rw [install_apk_from_memory_actions]
  cases d.pushResult <;> simp

theorem install_no_dump (st : AppState) (d : Device) (p s : String) :
    Action.shellDumpPolicy s ∉ (install_apk_from_memory st d p).actions := by
  rw [install_apk_from_memory_actions]
  cases d.pushResult <;> simp

theorem ownerPhase_no_kill_of_nofire (st : AppState) (d : Device) (dump2 output : String)
    (h7 : d.dumpPolicy2 = .ok dump2) (h8 : pyIn "Device Owner:" dump2 = false)
    (h9 : d.setOwnerResult = .ok output)
    (hf : (pyIn "error" (pyLower output) || pyIn "failure" (pyLower output)) = false) :
    Action.adbKillServer ∉ (ownerPhase st d).actions := by
  rw [ownerPhase_nofire st d dump2 output h7 h8 h9 hf]
  simp

/-- The scan of lines 228-232 is a `find?` over the stripped lines. -/
theorem versionLineScan_eq_find (ls : List String) :
    versionLineScan ls =
      match (ls.map pyStrip).find? (fun l => pyStartswith "versionName=" l) with
      | some line => pyStrip (pySplitEq1 line)
      | none => "N/A" := by
  induction ls with
  | nil => rfl
  | cons a rest ih =>
    simp only [versionLineScan, List.map_cons, List.find?_cons]
    cases h : pyStartswith "versionName=" (pyStrip a) with
    | false =>
      simp only [h, Bool.false_eq_true, if_false]
      exact ih
    | true =>
      simp only [h, if_true]

/-- The `try`/`except` around `device.uninstall` (lines 277-281) swallows
any exception: the whole per-device processing is unchanged by the
uninstall outcome. -/
theorem processDevice_uninstall_congr (st : AppState) (d : Device)
    (r : Except String String) :
    processDevice st {d with uninstallResult := r} = processDevice st d := by
  obtain ⟨s, d1, pk, ur, pr, ir, d2, so, ks⟩ := d
  cases d1 <;> cases pk <;> cases r <;> cases ur <;> rfl

/-- `ownerPhase` reads only the serial, the re-query, the set-owner and
the kill-server oracles. -/
theorem ownerPhase_fields (st : AppState) (d d' : Device)
    (hs : d'.serial = d.serial) (h2 : d'.dumpPolicy2 = d.dumpPolicy2)
    (hso : d'.setOwnerResult = d.setOwnerResult)
    (hks : d'.killServerResult = d.killServerResult) :
    ownerPhase st d' = ownerPhase st d := by
  obtain ⟨s, d1, pk, ur, pr, ir, d2, so, ks⟩ := d
  obtain ⟨s', d1', pk', ur', pr', ir', d2', so', ks'⟩ := d'
  dsimp only at hs h2 hso hks
  subst hs; subst h2; subst hso; subst hks
  rfl

theorem provisionDevice_outcome_install_congr (st : AppState) (d : Device)
    (p : String) (pr' : Except String Unit) (ir' : Except String String) :
    (provisionDevice st {d with pushResult := pr', pmInstallResult := ir'} p).outcome =
      (provisionDevice st d p).outcome := by
  obtain ⟨s, d1, pk, ur, pr, ir, d2, so, ks⟩ := d
  dsimp only
  unfold provisionDevice
  cases pk with
  | error e => rfl
  | ok pkgs =>
    dsimp only
    rw [install_apk_from_memory_state, install_apk_from_memory_state]
    rw [ownerPhase_fields st ⟨s, d1, Except.ok pkgs, ur, pr, ir, d2, so, ks⟩
      ⟨s, d1, Except.ok pkgs, ur, pr', ir', d2, so, ks⟩ rfl rfl rfl rfl]

/-- The result of the install step is logged but never branched on: the
outcome of processing a device does not depend on the push or
`pm install` results. -/
theorem processDevice_outcome_install_congr (st : AppState) (d : Device)
    (pr' : Except String Unit) (ir' : Except String String) :
    (processDevice st {d with pushResult := pr', pmInstallResult := ir'}).outcome =
      (processDevice st d).outcome := by
  obtain ⟨s, d1, pk, ur, pr, ir, d2, so, ks⟩ := d
  dsimp only
  unfold processDevice
  cases d1 with
  | error e => rfl
  | ok dump =>
    dsimp only
    split
    · rfl
    · cases st.temp_apk_path with
      | none => rfl
      | some p =>
        dsimp only
        split
        · rfl
        · have hprov := provisionDevice_outcome_install_congr st
            ⟨s, Except.ok dump, pk, ur, pr, ir, d2, so, ks⟩ p pr' ir'
          dsimp only at hprov
          cases hoR : (provisionDevice st ⟨s, Except.ok dump, pk, ur, pr, ir, d2, so, ks⟩ p).outcome with
          | ok u =>
            rw [hoR] at hprov
            simp only [hprov, hoR]
          | error e =>
            rw [hoR] at hprov
            simp only [hprov, hoR]

/-! ### Concrete sample states and devices -/

/-- A state with a loaded APK whose temporary file exists. -/
def stApk : AppState := ⟨some "/tmp/launcher.apk", fun _ => true⟩

/-- A state with no APK loaded. -/
def stNoApk : AppState := ⟨none, fun _ => false⟩

/-- A device already reporting a device owner. -/
def devOwned : Device :=
  ⟨"A1", .ok "  Device Owner: com.x/.Admin", .ok "", .ok "", .ok (), .ok "",
    .ok "", .ok "", .ok ()⟩

/-- A device with no owner whose set-owner command reports an error. -/
def devErrOwner : Device :=
  ⟨"B2", .ok "policies:", .ok "package:com.hmdm.launcher", .ok "Success", .ok (),
    .ok "Success", .ok "policies:", .ok "java.lang.Error: not allowed", .ok ()⟩

/-- A device whose first `dumpsys` call raises. -/
def devRaise : Device :=
  ⟨"C3", .error "device offline", .ok "", .ok "", .ok (), .ok "", .ok "",
    .ok "", .ok ()⟩

/-- A device provisioned cleanly: no owner, launcher absent, install and
set-owner succeed. -/
def devClean : Device :=
  ⟨"D4", .ok "policies:", .ok "package:android", .ok "", .ok (), .ok "Success",
    .ok "policies:", .ok "Success", .ok ()⟩

/-- A device on which the pre-install uninstall raises. -/
def devUninstFail : Device :=
  ⟨"E5", .ok "policies:", .ok "package:com.hmdm.launcher",
    .error "uninstall boom", .ok (), .ok "Success",
    .ok "Device Owner: com.hmdm", .ok "", .ok ()⟩

/-- A device on which the APK push raises. -/
def devPushFail : Device :=
  ⟨"F6", .ok "policies:", .ok "package:android", .ok "", .error "push boom",
    .ok "Success", .ok "Device Owner: com.hmdm", .ok "", .ok ()⟩

/-! ### The claims -/

/-- C1: a device whose first device-owner query output contains
`"Device Owner:"` gets no uninstall, no APK push, no install and no
set-device-owner call from the bulk pass: only the initial query and the
UI refresh are issued, and the pass moves on to the remaining devices. -/
theorem owner_already_set_skips_device
    (st : AppState) (d : Device) (rest : List Device) (dump : String)
    (h1 : d.dumpPolicy1 = .ok dump)
    (h2 : pyIn "Device Owner:" dump = true) :
    (processDevice st d).actions =
      [Action.shellDumpPolicy d.serial, Action.updateUI] ∧
    (∀ s, Action.uninstallLauncher s ∉ (processDevice st d).actions) ∧
    (∀ s lp rp, Action.pushApk s lp rp ∉ (processDevice st d).actions) ∧
    (∀ s rp, Action.shellPmInstall s rp ∉ (processDevice st d).actions) ∧
    (∀ s, Action.shellSetDeviceOwner s ∉ (processDevice st d).actions) ∧
    run_command st (d :: rest) =
      [Action.shellDumpPolicy d.serial, Action.updateUI] ++ runLoop st rest := by
  have hact : processDevice st d =
      ⟨[Action.shellDumpPolicy d.serial, Action.updateUI], st, .ok ()⟩ := by
    unfold processDevice
    rw [h1]
    dsimp only
    rw [if_pos h2]
  refine ⟨by rw [hact], ?_, ?_, ?_, ?_, ?_⟩
  · intro s hmem; rw [hact] at hmem; simp at hmem
  · intro s lp rp hmem; rw [hact] at hmem; simp at hmem
  · intro s rp hmem; rw [hact] at hmem; simp at hmem
  · intro s hmem; rw [hact] at hmem; simp at hmem
  · show runLoop st (d :: rest) = _
    rw [runLoop_cons_ok st d rest (by rw [hact])]
    rw [hact]

theorem owner_already_set_skips_device_witness :
    (processDevice stApk devOwned).actions =
      [Action.shellDumpPolicy "A1", Action.updateUI] :=
  (owner_already_set_skips_device stApk devOwned []
    "  Device Owner: com.x/.Admin" rfl rfl).1

/-- Helper for C2: on the install path, `adb kill-server` occurs in the
device trace exactly as often as in its owner phase. -/
theorem processDevice_count_kill (st : AppState) (d : Device)
    (p dump pkgs : String)
    (h1 : d.dumpPolicy1 = .ok dump) (h2 : pyIn "Device Owner:" dump = false)
    (h3 : st.temp_apk_path = some p) (h4 : p.isEmpty = false)
    (h5 : st.fileExists p = true)
    (h6 : d.pmListPackages = .ok pkgs) :
    (processDevice st d).actions.count Action.adbKillServer =
      (ownerPhase st d).actions.count Action.adbKillServer := by
  rw [processDevice_provision st d p dump h1 h2 h3 h4 h5,
    provisionDevice_eq st d p pkgs h6]
  cases ho : (ownerPhase st d).outcome with
  | ok u =>
    dsimp only
    rw [install_apk_from_memory_actions]
    cases d.pushResult <;> split <;>
      simp [List.count_append, List.count_cons]
  | error e =>
    dsimp only
    rw [install_apk_from_memory_actions]
    cases d.pushResult <;> split <;>
      simp [List.count_append, List.count_cons]

/-- C2: whenever the set-device-owner command runs and returns output,
the failure test of line 294 is exactly case-insensitive containment of
`"error"` or `"failure"` in that output, and the device's call trace
contains exactly one `adb kill-server` invocation when the test fires
and none otherwise. -/
theorem owner_error_test_ci_single_restart
    (st : AppState) (d : Device) (p dump pkgs dump2 output : String)
    (h1 : d.dumpPolicy1 = .ok dump) (h2 : pyIn "Device Owner:" dump = false)
    (h3 : st.temp_apk_path = some p) (h4 : p.isEmpty = false)
    (h5 : st.fileExists p = true)
    (h6 : d.pmListPackages = .ok pkgs)
    (h7 : d.dumpPolicy2 = .ok dump2) (h8 : pyIn "Device Owner:" dump2 = false)
    (h9 : d.setOwnerResult = .ok output) :
    ((pyIn "error" (pyLower output) || pyIn "failure" (pyLower output)) = true ↔
      ((∃ t, t <:+: output.toList ∧ t.map Char.toLower = "error".toList) ∨
        (∃ t, t <:+: output.toList ∧ t.map Char.toLower = "failure".toList))) ∧
    (processDevice st d).actions.count Action.adbKillServer =
      (if (pyIn "error" (pyLower output) || pyIn "failure" (pyLower output)) = true
        then 1 else 0) := by
  constructor
  · rw [Bool.or_eq_true, pyIn_pyLower_iff, pyIn_pyLower_iff]
  · rw [processDevice_count_kill st d p dump pkgs h1 h2 h3 h4 h5 h6]
    cases hf : (pyIn "error" (pyLower output) || pyIn "failure" (pyLower output)) with
    | true =>
      obtain ⟨hacts, _⟩ := ownerPhase_fire st d dump2 output h7 h8 h9 hf
      rw [hacts]
      simp [List.count_cons]
    | false =>
      rw [ownerPhase_nofire st d dump2 output h7 h8 h9 hf]
      simp [List.count_cons]

theorem owner_error_test_ci_single_restart_witness :
    (processDevice stApk devErrOwner).actions.count Action.adbKillServer = 1 := by
  have h := (owner_error_test_ci_single_restart stApk devErrOwner
    "/tmp/launcher.apk" "policies:" "package:com.hmdm.launcher" "policies:"
    "java.lang.Error: not allowed" rfl rfl rfl rfl rfl rfl rfl rfl rfl).2
  rw [h]
  decide

/-- C3: a Python exception escaping the per-device processing is caught
by `run_command` itself: the pass issues one `adb kill-server`, processes
no further device (the result does not depend on `rest`), and returns
normally. -/
theorem exception_restarts_server_and_stops
    (st : AppState) (d : Device) (rest : List Device) (e : String)
    (h : (processDevice st d).outcome = .error e) :
    run_command st (d :: rest) =
      (processDevice st d).actions ++ [Action.adbKillServer] := by
  show runLoop st (d :: rest) = _
  exact runLoop_cons_error st d rest e h

theorem exception_restarts_server_and_stops_witness :
    run_command stApk (devRaise :: [devClean, devOwned]) =
      (processDevice stApk devRaise).actions ++ [Action.adbKillServer] :=
  exception_restarts_server_and_stops stApk devRaise [devClean, devOwned]
    "device offline" rfl

/-- C4: on the install path the owner status is re-queried after the
install attempt (the trace holds exactly two owner queries), and the
set-device-owner command appears in the trace exactly when the re-query
output lacks `"Device Owner:"`. -/
theorem recheck_owner_and_set_iff
    (st : AppState) (d : Device) (p dump pkgs dump2 : String)
    (h1 : d.dumpPolicy1 = .ok dump) (h2 : pyIn "Device Owner:" dump = false)
    (h3 : st.temp_apk_path = some p) (h4 : p.isEmpty = false)
    (h5 : st.fileExists p = true)
    (h6 : d.pmListPackages = .ok pkgs)
    (h7 : d.dumpPolicy2 = .ok dump2) :
    (Action.shellSetDeviceOwner d.serial ∈ (processDevice st d).actions ↔
      pyIn "Device Owner:" dump2 = false) ∧
    (processDevice st d).actions.count (Action.shellDumpPolicy d.serial) = 2 := by
  have hcount1 := ownerPhase_count_dump st d dump2 h7
  rw [processDevice_provision st d p dump h1 h2 h3 h4 h5,
    provisionDevice_eq st d p pkgs h6]
  constructor
  · cases h8 : pyIn "Device Owner:" dump2 with
    | false =>
      have hmem := ownerPhase_noowner_mem st d dump2 h7 h8
      cases ho : (ownerPhase st d).outcome <;> dsimp only <;>
        simp [List.mem_append, hmem]
    | true =>
      rw [ownerPhase_owner_present st d dump2 h7 h8,
        install_apk_from_memory_actions]
      dsimp only
      cases d.pushResult <;> split <;> simp
  · rw [install_apk_from_memory_actions]
    cases ho : (ownerPhase st d).outcome <;> dsimp only <;>
      cases d.pushResult <;> split <;>
        simp [List.count_append, List.count_cons, hcount1]

theorem recheck_owner_and_set_iff_witness :
    (Action.shellSetDeviceOwner "D4" ∈ (processDevice stApk devClean).actions ↔
      pyIn "Device Owner:" "policies:" = false) ∧
    (processDevice stApk devClean).actions.count (Action.shellDumpPolicy "D4") = 2 :=
  recheck_owner_and_set_iff stApk devClean "/tmp/launcher.apk" "policies:"
    "package:android" "policies:" rfl rfl rfl rfl rfl rfl rfl

/-- C5: a device with no owner set is skipped with a `continue` when no
APK is loaded or its temporary file is missing: only the owner query is
issued, nothing raises, and the pass goes on with the remaining
devices. -/
theorem no_apk_skips_device
    (st : AppState) (d : Device) (rest : List Device) (dump : String)
    (h1 : d.dumpPolicy1 = .ok dump) (h2 : pyIn "Device Owner:" dump = false)
    (h3 : st.temp_apk_path = none ∨
      ∃ p, st.temp_apk_path = some p ∧ st.fileExists p = false) :
    processDevice st d = ⟨[Action.shellDumpPolicy d.serial], st, .ok ()⟩ ∧
    run_command st (d :: rest) =
      Action.shellDumpPolicy d.serial :: runLoop st rest := by
  have hact : processDevice st d =
      ⟨[Action.shellDumpPolicy d.serial], st, .ok ()⟩ := by
    unfold processDevice
    rw [h1]
    dsimp only
    rw [if_neg (by rw [h2]; exact Bool.false_ne_true)]
    rcases h3 with hnone | ⟨p, hp, hex⟩
    · rw [hnone]
    · rw [hp]
      dsimp only
      rw [if_pos (by rw [hex]; simp)]
  refine ⟨hact, ?_⟩
  show runLoop st (d :: rest) = _
  rw [runLoop_cons_ok st d rest (by rw [hact]), hact]
  rfl

theorem no_apk_skips_device_witness :
    processDevice stNoApk devClean =
      ⟨[Action.shellDumpPolicy "D4"], stNoApk, .ok ()⟩ :=
  (no_apk_skips_device stNoApk devClean [] "policies:" rfl rfl (Or.inl rfl)).1

/-- C6: when the launcher package is listed as installed and the
uninstall call raises, the exception is swallowed by the `try` of lines
277-281: the uninstall is attempted right before the push, the failure
becomes the logged text of line 281, and the device's whole processing is
exactly as if the uninstall had returned normally. -/
theorem uninstall_failure_is_caught
    (st : AppState) (d : Device) (p dump pkgs e : String)
    (h1 : d.dumpPolicy1 = .ok dump) (h2 : pyIn "Device Owner:" dump = false)
    (h3 : st.temp_apk_path = some p) (h4 : p.isEmpty = false)
    (h5 : st.fileExists p = true)
    (h6 : d.pmListPackages = .ok pkgs)
    (h7 : pyIn "com.hmdm.launcher" pkgs = true)
    (h8 : d.uninstallResult = .error e) :
    (processDevice st d).actions.take 4 =
      [Action.shellDumpPolicy d.serial, Action.shellPmList d.serial,
        Action.uninstallLauncher d.serial, Action.pushApk d.serial p remotePath] ∧
    (uninstallStep d).2 = "Uninstall failed: " ++ e ∧
    (∀ r, processDevice st {d with uninstallResult := r} = processDevice st d) := by
  refine ⟨?_, ?_, ?_⟩
  · rw [processDevice_provision st d p dump h1 h2 h3 h4 h5,
      provisionDevice_eq st d p pkgs h6, install_apk_from_memory_actions,
      if_pos h7]
    cases ho : (ownerPhase st d).outcome <;> dsimp only <;>
      cases d.pushResult <;> rfl
  · unfold uninstallStep
    rw [h8]
  · intro r
    exact processDevice_uninstall_congr st d r

theorem uninstall_failure_is_caught_witness :
    (processDevice stApk devUninstFail).actions.take 4 =
      [Action.shellDumpPolicy "E5", Action.shellPmList "E5",
        Action.uninstallLauncher "E5",
        Action.pushApk "E5" "/tmp/launcher.apk" remotePath] ∧
    (uninstallStep devUninstFail).2 = "Uninstall failed: " ++ "uninstall boom" :=
  ⟨(uninstall_failure_is_caught stApk devUninstFail "/tmp/launcher.apk"
      "policies:" "package:com.hmdm.launcher" "uninstall boom"
      rfl rfl rfl rfl rfl rfl rfl rfl).1,
    (uninstall_failure_is_caught stApk devUninstFail "/tmp/launcher.apk"
      "policies:" "package:com.hmdm.launcher" "uninstall boom"
      rfl rfl rfl rfl rfl rfl rfl rfl).2.1⟩

/-- C7: a push or `pm install` failure inside `install_apk_from_memory`
is returned as an error string, never raised; the function and the whole
per-device processing leave the application state (in particular
`temp_apk_path`) untouched; the processing outcome is independent of the
push and install results; and a device whose processing returns normally
is followed by the next one. -/
theorem install_failure_contained (st : AppState) (d : Device) (p : String) :
    (∀ e, d.pushResult = .error e →
      (install_apk_from_memory st d p).result =
        "Failed to push APK to device: " ++ e) ∧
    (∀ u e, d.pushResult = .ok u → d.pmInstallResult = .error e →
      (install_apk_from_memory st d p).result =
        "Failed to run pm install: " ++ e) ∧
    (install_apk_from_memory st d p).state = st ∧
    (processDevice st d).state = st ∧
    (∀ pr ir,
      (processDevice st {d with pushResult := pr, pmInstallResult := ir}).outcome =
        (processDevice st d).outcome) ∧
    (∀ rest, (processDevice st d).outcome = .ok () →
      runLoop st (d :: rest) = (processDevice st d).actions ++ runLoop st rest) := by
  refine ⟨?_, ?_, install_apk_from_memory_state st d p,
    processDevice_state st d, ?_, ?_⟩
  · intro e he
    unfold install_apk_from_memory
    rw [he]
  · intro u e hu he
    unfold install_apk_from_memory
    rw [hu]
    dsimp only
    rw [he]
  · intro pr ir
    exact processDevice_outcome_install_congr st d pr ir
  · intro rest h
    exact runLoop_cons_ok st d rest h

theorem install_failure_contained_witness :
    (install_apk_from_memory stApk devPushFail "/tmp/launcher.apk").result =
      "Failed to push APK to device: " ++ "push boom" :=
  (install_failure_contained stApk devPushFail "/tmp/launcher.apk").1
    "push boom" rfl

/-- C9: in this variant, detecting the failure substring in the
set-owner output (and restarting the server) does not abort the batch:
the device's processing returns normally with the kill-server call in
its trace, the loop goes on with the remaining devices, and when none of
them raises, every remaining device is processed. -/
theorem detection_does_not_abort_batch
    (st : AppState) (d : Device) (rest : List Device)
    (p dump pkgs dump2 output : String)
    (h1 : d.dumpPolicy1 = .ok dump) (h2 : pyIn "Device Owner:" dump = false)
    (h3 : st.temp_apk_path = some p) (h4 : p.isEmpty = false)
    (h5 : st.fileExists p = true)
    (h6 : d.pmListPackages = .ok pkgs)
    (h7 : d.dumpPolicy2 = .ok dump2) (h8 : pyIn "Device Owner:" dump2 = false)
    (h9 : d.setOwnerResult = .ok output)
    (hf : (pyIn "error" (pyLower output) || pyIn "failure" (pyLower output)) = true)
    (h10 : d.killServerResult = .ok ()) :
    Action.adbKillServer ∈ (processDevice st d).actions ∧
    (processDevice st d).outcome = .ok () ∧
    run_command st (d :: rest) = (processDevice st d).actions ++ runLoop st rest ∧
    ((∀ d' ∈ rest, (processDevice st d').outcome = .ok ()) →
      runLoop st rest = rest.flatMap fun d' => (processDevice st d').actions) := by
  obtain ⟨hacts, houtc⟩ := ownerPhase_fire st d dump2 output h7 h8 h9 hf
  have ho : (ownerPhase st d).outcome = .ok () := houtc h10
  have hout : (processDevice st d).outcome = .ok () := by
    rw [processDevice_provision st d p dump h1 h2 h3 h4 h5,
      provisionDevice_eq st d p pkgs h6]
    dsimp only
    simp only [ho]
  have hmem : Action.adbKillServer ∈ (processDevice st d).actions := by
    rw [processDevice_provision st d p dump h1 h2 h3 h4 h5,
      provisionDevice_eq st d p pkgs h6]
    dsimp only
    simp only [ho]
    rw [hacts]
    simp [List.mem_append]
  refine ⟨hmem, hout, ?_, ?_⟩
  · show runLoop st (d :: rest) = _
    exact runLoop_cons_ok st d rest hout
  · intro hall
    exact runLoop_all_ok st rest hall

theorem detection_does_not_abort_batch_witness :
    Action.adbKillServer ∈ (processDevice stApk devErrOwner).actions ∧
    (processDevice stApk devErrOwner).outcome = .ok () :=
  ⟨(detection_does_not_abort_batch stApk devErrOwner [devClean]
      "/tmp/launcher.apk" "policies:" "package:com.hmdm.launcher" "policies:"
      "java.lang.Error: not allowed" rfl rfl rfl rfl rfl rfl rfl rfl rfl
      (by decide) rfl).1,
    (detection_does_not_abort_batch stApk devErrOwner [devClean]
      "/tmp/launcher.apk" "policies:" "package:com.hmdm.launcher" "policies:"
      "java.lang.Error: not allowed" rfl rfl rfl rfl rfl rfl rfl rfl rfl
      (by decide) rfl).2.1⟩

/-- C8: the version `check_loaded_apk` displays is the captured group of
the regex `versionName='([^']+)'` on the badging tool's stdout when the
tool exits 0 and the pattern matches; on an exception, a nonzero exit
code, or a failed search (exactly: no match decomposition of the stdout
exists) it is `"unknown"`. -/
theorem check_loaded_apk_version_spec (aapt : Except String (Int × String)) :
    (∀ e, aapt = .error e → check_loaded_apk_version aapt = "unknown") ∧
    (∀ rc out, aapt = .ok (rc, out) → rc ≠ 0 →
      check_loaded_apk_version aapt = "unknown") ∧
    (∀ out, aapt = .ok (0, out) → versionNameSearch out.toList = none →
      check_loaded_apk_version aapt = "unknown" ∧
        ∀ g, ¬ VersionNameMatch out.toList g) ∧
    (∀ out g, aapt = .ok (0, out) → versionNameSearch out.toList = some g →
      check_loaded_apk_version aapt = String.mk g ∧
        VersionNameMatch out.toList g) := by
  refine ⟨?_, ?_, ?_, ?_⟩
  · intro e he
    rw [he]
    rfl
  · intro rc out ha hrc
    rw [ha]
    unfold check_loaded_apk_version
    dsimp only
    rw [if_neg hrc]
  · intro out ha hn
    rw [ha]
    unfold check_loaded_apk_version
    refine ⟨?_, fun g => versionNameSearch_none hn g⟩
    dsimp only
    rw [if_pos rfl, hn]
  · intro out g ha hs
    rw [ha]
    unfold check_loaded_apk_version
    refine ⟨?_, versionNameSearch_sound hs⟩
    dsimp only
    rw [if_pos rfl, hs]

theorem check_loaded_apk_version_spec_witness :
    check_loaded_apk_version (.ok (0, "badging versionName='1.2.3' x")) =
      "1.2.3" := by
  have h := ((check_loaded_apk_version_spec
      (.ok (0, "badging versionName='1.2.3' x"))).2.2.2
      "badging versionName='1.2.3' x" "1.2.3".toList rfl (by decide)).1
  exact h

/-- C10: `get_installed_version` never raises: an exception from the
shell call yields `"N/A"`, and otherwise the result is determined by the
first stripped line of the output that starts with `versionName=` — the
text after its first `=`, stripped — with `"N/A"` when no such line
exists. -/
theorem get_installed_version_spec (pkg_info : Except String String) :
    (∀ e, pkg_info = .error e → get_installed_version pkg_info = "N/A") ∧
    (∀ s, pkg_info = .ok s →
      get_installed_version pkg_info =
        match ((pySplitlines s).map pyStrip).find?
            (fun l => pyStartswith "versionName=" l) with
        | some line => pyStrip (pySplitEq1 line)
        | none => "N/A") := by
  refine ⟨?_, ?_⟩
  · intro e he
    rw [he]
    rfl
  · intro s hs
    rw [hs]
    show versionLineScan (pySplitlines s) = _
    exact versionLineScan_eq_find (pySplitlines s)

theorem get_installed_version_spec_witness :
    get_installed_version (.ok "Packages:\n    versionName=5.1.0\n    x") =
      "5.1.0" := by
  have h := (get_installed_version_spec
      (.ok "Packages:\n    versionName=5.1.0\n    x")).2
      "Packages:\n    versionName=5.1.0\n    x" rfl
  exact h.trans (by decide)
